import Mathlib

/-!
Shallow embedding of `resources/kdk_handler.py` (OpenCore-Legacy-Patcher),
the Kernel Debug Kit (KDK) downloader: catalog fetching and sorting, the
legacy AppleDB closest-match fallback, the Apple developer portal probe,
the GitHub mirror lookup, the on-disk KDK cache (install check and
pruning), and the top-level `download_kdk` orchestrator.

External collaborators (the `requests` session, `utilities` helpers,
`hdiutil`, the privileged remover) are modelled as oracles packaged in a
`World` record; Python exceptions are modelled with the `Except` monad so
that caught-and-converted faults and uncaught propagating faults are
distinguishable.
-/

deriving instance DecidableEq for Except

namespace KDK

/-! ## Definitions: the embedded data model, the operations of
`kdk_handler.py`, and the concrete worlds used by witnesses and
counterexamples. -/

/-- Boolean test that `needle` occurs as a contiguous substring of the
character list `hay`; models the Python `in` operator on `str`. -/
def charsContain (needle : List Char) : List Char → Bool
  | [] => needle.isPrefixOf []
  | c :: cs => needle.isPrefixOf (c :: cs) || charsContain needle cs

/-- Python `needle in hay` on strings. -/
def strContains (hay needle : String) : Bool :=
  charsContain needle.data hay.data

/-- Parsed version, as produced by `packaging.version.parse`: the numeric
release components, in order.  Models plain release versions (the only
kind appearing in KDK catalogs and matched by the handler's
`VERSION_PATTERN` regex); PEP 440 extras (epochs, pre-releases, local
segments) are outside the modelled domain and treated as malformed. -/
structure PyVersion where
  release : List Nat
deriving Repr, DecidableEq

/-- Component accessor modelling `packaging.version.Version.major`. -/
def PyVersion.major (v : PyVersion) : Nat := v.release.headD 0

/-- Component accessor modelling `packaging.version.Version.minor`. -/
def PyVersion.minor (v : PyVersion) : Nat := (v.release.drop 1).headD 0

/-- Component accessor modelling `packaging.version.Version.micro`. -/
def PyVersion.micro (v : PyVersion) : Nat := (v.release.drop 2).headD 0

/-- Rendering modelling `str(version)` for a release-only version:
components joined with dots (numeric components are re-rendered, so
leading zeros are normalised away, as `packaging` does). -/
def PyVersion.str (v : PyVersion) : String :=
  String.intercalate "." (v.release.map toString)

/-- Sort key of a version: the release padded to three components,
compared lexicographically.  For release-only versions of at most three
components this agrees with `packaging`'s order (which strips trailing
zeros and compares release tuples lexicographically). -/
def PyVersion.key (v : PyVersion) : Lex (Nat × Lex (Nat × Nat)) :=
  toLex (v.major, toLex (v.minor, v.micro))

/-- Version comparison `v <= w` as `packaging.version` defines it on
release-only versions. -/
def PyVersion.vle (v w : PyVersion) : Bool :=
  decide (v.key ≤ w.key)

/-- Digit run at the front of a character list, maximal-munch, together
with the rest; models a greedy regex `\d+`. -/
def takeDigits (cs : List Char) : List Char × List Char :=
  (cs.takeWhile Char.isDigit, cs.dropWhile Char.isDigit)

/-- Numeric value of a (nonempty) digit run. -/
def digitsToNat (cs : List Char) : Nat :=
  cs.foldl (fun acc c => acc * 10 + (c.toNat - 48)) 0

/-- Split of a character list at every occurrence of a separator
character; models `str.split(sep)` for a one-character separator, so
kernel reduction works where `String.splitOn` would not reduce. -/
def splitChar (sep : Char) : List Char → List (List Char)
  | [] => [[]]
  | c :: cs =>
    let r := splitChar sep cs
    if c = sep then [] :: r
    else match r with
      | [] => [[c]]
      | g :: gs => (c :: g) :: gs

/-- Decimal value of a character group when it is a nonempty digit run,
as Python `int(...)` / `String.toNat?` accept it. -/
def decDigits? (cs : List Char) : Option Nat :=
  if cs ≠ [] ∧ cs.all Char.isDigit then some (digitsToNat cs) else none

/-- Python `str.endswith(suffix)`, implemented on the character lists so
that it reduces in the kernel. -/
def strEndsWith (s suffix : String) : Bool :=
  suffix.data.isSuffixOf s.data

/-- Parse of `packaging.version.parse` restricted to the modelled domain:
one to three dot-separated decimal components.  Anything else is treated
as malformed (`none`), which in the handler's call sites corresponds to
`packaging` raising `InvalidVersion`. -/
def parseVersion (s : String) : Option PyVersion :=
  match (splitChar '.' s.data).mapM decDigits? with
  | some parts => if parts.length = 0 ∨ 3 < parts.length then none else some ⟨parts⟩
  | none => none

/-- Python `VERSION_PATTERN = re.compile(r"\d+\.\d+(\.\d+)?")` applied
with `.match` (anchored at the start of the string, greedy): the leading
`major.minor` or `major.minor.patch` numeric token, or `none` when the
string does not begin with one. -/
def matchVersion (s : String) : Option PyVersion :=
  let (d1, r1) := takeDigits s.data
  if d1 = [] then none
  else match r1 with
    | '.' :: r2 =>
      let (d2, r3) := takeDigits r2
      if d2 = [] then none
      else match r3 with
        | '.' :: r4 =>
          let (d3, _) := takeDigits r4
          if d3 = [] then some ⟨[digitsToNat d1, digitsToNat d2]⟩
          else some ⟨[digitsToNat d1, digitsToNat d2, digitsToNat d3]⟩
        | _ => some ⟨[digitsToNat d1, digitsToNat d2]⟩
    | _ => none

/-- Calendar date, the comparison-relevant part of a parsed
`datetime.datetime`. -/
structure PyDate where
  year : Nat
  month : Nat
  day : Nat
deriving Repr, DecidableEq

/-- Sort key of a date: (year, month, day) lexicographically, which is
chronological order. -/
def PyDate.key (d : PyDate) : Lex (Nat × Lex (Nat × Nat)) :=
  toLex (d.year, toLex (d.month, d.day))

/-- Parse of `datetime.datetime.fromisoformat` restricted to the
modelled domain: exactly `YYYY-MM-DD` with a plausible month and day.
Anything else is malformed (`none`), corresponding to `fromisoformat`
raising `ValueError`; time-of-day suffixes are outside the modelled
domain. -/
def parseDate (s : String) : Option PyDate :=
  match splitChar '-' s.data with
  | [y, m, d] =>
    if y.length = 4 ∧ m.length = 2 ∧ d.length = 2 then
      match decDigits? y, decDigits? m, decDigits? d with
      | some yn, some mn, some dn =>
        if 1 ≤ mn ∧ mn ≤ 12 ∧ 1 ≤ dn ∧ dn ≤ 31 then some ⟨yn, mn, dn⟩ else none
      | _, _, _ => none
    else none
  | _ => none

/-- Combined (version, date) sort key used by both remote catalog sorts. -/
abbrev SortKey := Lex ((Lex (Nat × Lex (Nat × Nat))) × (Lex (Nat × Lex (Nat × Nat))))

/-- Combined key of a version and a date. -/
def sortKey (v : PyVersion) (d : PyDate) : SortKey :=
  toLex (v.key, d.key)

/-- Boolean relation for a stable descending sort by `SortKey`, as
`sorted(..., key=..., reverse=True)` produces. -/
def keyGE {α : Type} (key : α → SortKey) (a b : α) : Bool :=
  decide (key b ≤ key a)

/-- Stable insert of `x` into a list sorted descending by `r`: `x` goes
in front of the first element it is `r`-at-least, so among equal keys
the inserted (originally earlier) element comes first. -/
def insertGE {α : Type} (r : α → α → Bool) (x : α) : List α → List α
  | [] => [x]
  | y :: ys => if r x y then x :: y :: ys else y :: insertGE r x ys

/-- Stable sort, descending by `r`; extensionally the function computed
by Python `sorted(..., key=..., reverse=True)` (both are stable sorts by
the same key). -/
def sortGE {α : Type} (r : α → α → Bool) : List α → List α
  | [] => []
  | x :: xs => insertGE r x (sortGE r xs)

/-- Entry of the local KDK cache directory `/Library/Developer/KDKs`:
its name, whether it is a directory, and the set (as a list) of relative
paths that exist beneath it. -/
structure Entry where
  ename : String
  isDir : Bool
  files : List String
deriving Repr, DecidableEq

/-- Cache state: `none` when `/Library/Developer/KDKs` does not exist,
otherwise the directory listing in iteration order. -/
abbrev Cache := Option (List Entry)

/-- Marker kexts checked by `is_kdk_installed` (`kexts_to_check`). -/
def kexts_to_check : List String :=
  [ "System.kext/PlugIns/Libkern.kext/Libkern",
    "apfs.kext/Contents/MacOS/apfs",
    "IOUSBHostFamily.kext/Contents/MacOS/IOUSBHostFamily",
    "AMDRadeonX6000.kext/Contents/MacOS/AMDRadeonX6000" ]

/-- Validity check of one cache entry: every marker kext exists under
`System/Library/Extensions` beneath it. -/
def entryValid (e : Entry) : Bool :=
  kexts_to_check.all fun k => ("System/Library/Extensions/" ++ k) ∈ e.files

/-- Scan of `is_kdk_installed` over the directory listing: the first
directory whose name ends in `"<build>.kdk"` decides the result — `true`
if all marker kexts exist beneath it, else the directory is removed (the
privileged `rm -rf`) and the result is `false`.  Returns the result and
the listing after any removal. -/
def installedScan (build : String) : List Entry → Bool × List Entry
  | [] => (false, [])
  | e :: es =>
    if e.isDir ∧ strEndsWith e.ename (build ++ ".kdk") then
      if entryValid e then (true, e :: es) else (false, es)
    else
      let r := installedScan build es
      (r.1, e :: r.2)

/-- Python `is_kdk_installed(build)`: `false` when the cache root does
not exist, otherwise the scan above; the returned cache reflects the
eager removal of a corrupted kit. -/
def is_kdk_installed (cache : Cache) (build : String) : Bool × Cache :=
  match cache with
  | none => (false, none)
  | some es =>
    let r := installedScan build es
    (r.1, some r.2)

/-- Removal predicate of `remove_unused_kdks`: a directory entry whose
name ends in `".kdk"` is removed unless some nonempty excluded build
`b` has `ename` ending in `b ++ ".kdk"` (the `build != ""` guard means
an empty excluded build protects nothing). -/
def shouldRemove (exclude_builds : List String) (e : Entry) : Bool :=
  e.isDir && strEndsWith e.ename ".kdk" &&
    !(exclude_builds.any fun b => b != "" && strEndsWith e.ename (b ++ ".kdk"))

/-- Python `remove_unused_kdks(exclude_builds)`: no-op when pruning is
disabled (`should_nuke_kdks is False`), when the cache root is missing,
or when `exclude_builds` is the empty list; otherwise removes every
entry satisfying `shouldRemove`. -/
def remove_unused_kdks (should_nuke_kdks : Bool) (cache : Cache)
    (exclude_builds : List String) : Cache :=
  if should_nuke_kdks = false then cache
  else match cache with
    | none => none
    | some es =>
      if exclude_builds = [] then some es
      else some (es.filter fun e => !shouldRemove exclude_builds e)

/-- Exceptions of the `requests` library caught by the handler's
`except (Timeout, TooManyRedirects, ConnectionError)` clauses. -/
inductive ReqExn
  | timeout
  | tooManyRedirects
  | connectionError
deriving Repr, DecidableEq

/-- Python exceptions that can escape the modelled code: a
`packaging.version.InvalidVersion`, a `ValueError` from
`datetime.fromisoformat`, or an uncaught `requests` exception. -/
inductive PyErr
  | invalidVersion (s : String)
  | invalidDate (s : String)
  | netExn (e : ReqExn)
deriving Repr, DecidableEq

/-- Outcome of one HTTP GET: a raised `requests` exception, or a
response with a status code and a decoded body. -/
inductive ReqOutcome (α : Type)
  | exn (e : ReqExn)
  | resp (status : Nat) (body : α)
deriving Repr, DecidableEq

/-- Raw record of the primary KDK catalog (`kdk-api.dhinak.net`):
the JSON fields the handler reads. -/
structure CatalogRecord where
  version : String
  build : String
  date : String
  url : String
deriving Repr, DecidableEq

/-- Catalog record together with its parsed sort-key components. -/
structure KDKEntry where
  version : String
  build : String
  url : String
  pv : PyVersion
  pd : PyDate
deriving Repr, DecidableEq

/-- Record of the legacy AppleDB database (`api.appledb.dev`): the JSON
fields the handler reads from each `ios` entry. -/
structure DBRecord where
  osType : String
  version : String
  build : String
  released : String
deriving Repr, DecidableEq

/-- Asset of a GitHub mirror release. -/
structure Asset where
  aname : String
  browser_download_url : String
deriving Repr, DecidableEq

/-- Release of the GitHub mirror repository (`dortania/KdkSupportPkg`). -/
structure Release where
  tag_name : String
  assets : List Asset
deriving Repr, DecidableEq

/-- Oracles for every external collaborator of one `download_kdk` run:
the cache state, the prune configuration flag, the responses of the four
remote services, and the transfer/integrity outcomes.  `tokenResp` is
keyed by the token URL so the portal can answer differently for
different candidate links; `downloadOk` models both
`utilities.download_file` and `utilities.download_apple_developer_portal`
(the `"github" in link` branch only selects between the two). -/
structure World where
  cache : Cache
  should_nuke_kdks : Bool
  catalogResp : ReqOutcome (List CatalogRecord)
  legacyResp : ReqOutcome (List DBRecord)
  networkUp : Bool
  tokenResp : String → ReqOutcome String
  mirrorResp : ReqOutcome (List Release)
  downloadOk : String → Bool
  hdiutilOk : Bool

/-- Parse of one catalog record's sort-key fields, as the `sorted` key
lambda of `get_available_kdks` performs it; a malformed version or date
raises (there is no sentinel handling in this function). -/
def parseKDK (r : CatalogRecord) : Except PyErr KDKEntry :=
  match parseVersion r.version with
  | none => .error (.invalidVersion r.version)
  | some pv =>
    match parseDate r.date with
    | none => .error (.invalidDate r.date)
    | some pd => .ok ⟨r.version, r.build, r.url, pv, pd⟩

/-- Sort key of a parsed catalog record. -/
def kdkKey (k : KDKEntry) : SortKey := sortKey k.pv k.pd

/-- Python `get_available_kdks()`: a caught `requests` exception or a
non-200 status yields `None`; otherwise the records are sorted by
(parsed version, parsed date) descending.  A malformed version or date
string raises out of the `sorted` key lambda uncaught. -/
def get_available_kdks (w : World) : Except PyErr (Option (List KDKEntry)) :=
  match w.catalogResp with
  | .exn _ => .ok none
  | .resp status l =>
    if status ≠ 200 then .ok none
    else do
      let parsed ← l.mapM parseKDK
      pure (some (sortGE (keyGE kdkKey) parsed))

/-- Hexadecimal digit character (uppercase), for percent-encoding. -/
def hexDigit (n : Nat) : Char :=
  if n < 10 then Char.ofNat (48 + n) else Char.ofNat (55 + n)

/-- Percent-encoding of one character as `urllib.parse.urlencode`
performs it (`quote_plus`), modelled for the ASCII domain. -/
def quotePlusChar (c : Char) : List Char :=
  if c.isAlphanum || c = '_' || c = '.' || c = '-' || c = '~' then [c]
  else if c = ' ' then ['+']
  else ['%', hexDigit (c.toNat / 16 % 16), hexDigit (c.toNat % 16)]

/-- Python `urllib.parse.urlencode({"path": s})` value encoding. -/
def quote_plus (s : String) : String :=
  ⟨(s.data.map quotePlusChar).flatten⟩

/-- Rest of a URL after `"://"`, when a scheme is present. -/
def afterScheme : List Char → Option (List Char)
  | [] => none
  | ':' :: '/' :: '/' :: rest => some rest
  | _ :: cs => afterScheme cs

/-- Python `urllib.parse.urlparse(link).path`, modelled for absolute
`scheme://host/path` URLs: everything from the first `/` after the
authority up to a query or fragment delimiter. -/
def urlPath (link : String) : String :=
  match afterScheme link.data with
  | some rest => ⟨(rest.dropWhile (· ≠ '/')).takeWhile fun c => c ≠ '?' && c ≠ '#'⟩
  | none => ⟨link.data.takeWhile fun c => c ≠ '?' && c ≠ '#'⟩

/-- Token URL built by `verify_apple_developer_portal`: the fixed token
endpoint with the candidate link's path as the `path` query parameter. -/
def token_url_for (link : String) : String :=
  "https://developerservices2.apple.com/services/download?path=" ++ quote_plus (urlPath link)

/-- Body substring by which the portal reports a nonexistent file. -/
def invalid_path_msg : String := "The path specified is invalid"

/-- Python `verify_apple_developer_portal(link)`.  Returns the source's
numeric codes: 0 = file available, 1 = portal up but file unavailable,
2 = portal down, 3 = network error.  `requests.raise_for_status` raises
exactly for statuses 400–599. -/
def verify_apple_developer_portal (w : World) (link : String) : Nat :=
  if w.networkUp = false then 3
  else match w.tokenResp (token_url_for link) with
    | .exn _ => 2
    | .resp status body =>
      if 400 ≤ status ∧ status < 600 then
        if status = 400 ∧ strContains body invalid_path_msg then 1 else 2
      else 0

/-- Python `generate_kdk_link(version, build)`. -/
def generate_kdk_link (version build : String) : String :=
  "https://download.developer.apple.com/macOS/Kernel_Debug_Kit_" ++ version ++ "_build_" ++ build ++
    "/Kernel_Debug_Kit_" ++ version ++ "_build_" ++ build ++ ".dmg"

/-- Sort key of one AppleDB record, as the sort lambda of
`get_closest_match_legacy` computes it: a version that does not match
`VERSION_PATTERN` gets the sentinel `"0.0.0"`, an empty release date
gets the sentinel `"1984-01-01"`, but a nonempty malformed release date
raises out of `fromisoformat`. -/
def legacyKeyE (r : DBRecord) : Except PyErr SortKey := do
  let v := match matchVersion r.version with
    | some v => v
    | none => ⟨[0, 0, 0]⟩
  let d ← if r.released = "" then pure (⟨1984, 1, 1⟩ : PyDate)
    else match parseDate r.released with
      | some d => pure d
      | none => Except.error (.invalidDate r.released)
  pure (sortKey v d)

/-- Filter-and-sort phase of `get_closest_match_legacy`: keep the
`osType == "macOS"` records and sort them by the sentinel-guarded
(version, date) key, descending. -/
def sortLegacyE (js : List DBRecord) : Except PyErr (List DBRecord) := do
  let macos := js.filter fun r => r.osType == "macOS"
  let keyed ← macos.mapM fun r => do pure (r, ← legacyKeyE r)
  pure ((sortGE (keyGE Prod.snd) keyed).map Prod.fst)

/-- Selection scan of `get_closest_match_legacy` over the sorted list:
skip records whose version does not match the pattern, skip the host's
own build, and return the first record whose version is at most the host
version with equal major and minor, rendered as
(generated link, version string, build). -/
def scanLegacy (phv : PyVersion) (host_build : String) :
    List DBRecord → Option String × String × String
  | [] => (none, "", "")
  | r :: rs =>
    if r.osType == "macOS" then
      match matchVersion r.version with
      | none => scanLegacy phv host_build rs
      | some v =>
        if r.build == host_build then scanLegacy phv host_build rs
        else if v.vle phv && (v.major == phv.major) && (v.minor == phv.minor) then
          (some (generate_kdk_link v.str r.build), v.str, r.build)
        else scanLegacy phv host_build rs
    else scanLegacy phv host_build rs

/-- Lift of a version parse to the exception monad:
`packaging.version.parse` raising on malformed input. -/
def expectVersion (s : String) : Except PyErr PyVersion :=
  match parseVersion s with
  | some v => .ok v
  | none => .error (.invalidVersion s)

/-- Python `get_closest_match_legacy(host_version, host_build)`: parse
the host version (raising on malformed input), then fetch AppleDB — a
caught `requests` exception or non-200 status yields `(None, "", "")` —
then sort and scan. -/
def get_closest_match_legacy (w : World) (host_version host_build : String) :
    Except PyErr (Option String × String × String) := do
  let phv ← expectVersion host_version
  match w.legacyResp with
  | .exn _ => pure (none, "", "")
  | .resp status js =>
    if status ≠ 200 then pure (none, "", "")
    else do
      let sorted ← sortLegacyE js
      pure (scanLegacy phv host_build sorted)

/-- Release scan of `kdk_backup_site`: the first release whose tag
equals the build and which contains a `.dmg` asset yields that asset's
download URL; a tag-matching release without a `.dmg` asset lets the
loop continue to later releases. -/
def backupScan (build : String) : List Release → Option String
  | [] => none
  | r :: rs =>
    if r.tag_name == build then
      match r.assets.find? (fun a => strEndsWith a.aname ".dmg") with
      | some a => some a.browser_download_url
      | none => backupScan build rs
    else backupScan build rs

/-- Python `kdk_backup_site(build)`.  The `requests.get` call here is
NOT wrapped in a try/except, so a raised `requests` exception
propagates uncaught; a non-200 status or no matching release yields
`None`. -/
def kdk_backup_site (w : World) (build : String) : Except PyErr (Option String) :=
  match w.mirrorResp with
  | .exn e => .error (.netExn e)
  | .resp status releases =>
    if status ≠ 200 then .ok none
    else .ok (backupScan build releases)

/-- Accumulator of the catalog scan in `download_kdk`:
(download link, closest match link, closest version, closest build). -/
abbrev ScanState := Option String × Option String × String × String

/-- One step of the catalog scan loop in `download_kdk`: an exact build
match (re)assigns the primary download link — the last exact match wins
— while the first entry with version at most the target, equal major,
and minor equal to the target minor or one less becomes the closest
match (guarded by `not closest_match_download_link`, so only the first
such entry is kept).  The minor-minus-one comparison is on Python
integers, so a target minor of 0 admits no minor-minus-one match. -/
def scanStep (pv : PyVersion) (build : String) (acc : ScanState) (k : KDKEntry) : ScanState :=
  if k.build == build then (some k.url, acc.2)
  else if acc.2.1.isNone && k.pv.vle pv && (k.pv.major == pv.major) &&
      ((k.pv.minor == pv.minor) || ((k.pv.minor : Int) == (pv.minor : Int) - 1)) then
    (acc.1, some k.url, k.version, k.build)
  else acc

/-- Catalog scan loop of `download_kdk` over the sorted KDK list. -/
def scanKDKs (pv : PyVersion) (build : String) (l : List KDKEntry) : ScanState :=
  l.foldl (scanStep pv build) (none, none, "", "")

/-- Final value of one `download_kdk` run: the returned Python triple,
the cache state left on disk, and the link passed to the transfer
utility (`none` when the run returned without attempting a transfer). -/
structure RunResult where
  result : Bool × String × String
  cache : Cache
  downloaded : Option String
deriving Repr, DecidableEq

/-- Checksum-failure message of `download_kdk`. -/
def checksum_msg : String :=
  "Kernel Debug Kit checksum verification failed, please try again.\n\nIf this continues to fail, ensure you're downloading on a stable network connection (ie. Ethernet)"

/-- Transfer tail of `download_kdk` (lines 211–228): download via the
transport selected by the `"github" in link` test (both modelled by the
`downloadOk` oracle), then the `hdiutil verify` integrity check, then
prune excluding the detected and closest builds and return success with
the detected build. -/
def finish_transfer (w : World) (cache : Cache) (detected_build closest_build link : String) :
    RunResult :=
  if w.downloadOk link then
    if w.hdiutilOk then
      ⟨(true, "", detected_build),
        remove_unused_kdks w.should_nuke_kdks cache [detected_build, closest_build], some link⟩
    else ⟨(false, checksum_msg, ""), cache, some link⟩
  else ⟨(false, "Failed to download KDK", ""), cache, some link⟩

/-- Closest-match branch of `download_kdk` (`result == 1`, lines
165–198): if the closest build is already installed return success with
the CLOSEST build; with no closest link fail; otherwise probe the
closest link and on portal-down fall back to the mirror for the closest
build. -/
def fallback_closest (w : World) (cache : Cache) (detected_build : String)
    (closest_link : Option String) (closest_build : String) : Except PyErr RunResult :=
  let ri := is_kdk_installed cache closest_build
  if ri.1 then
    pure ⟨(true, "", closest_build),
      remove_unused_kdks w.should_nuke_kdks ri.2 [detected_build, closest_build], none⟩
  else
  match closest_link with
  | none => pure ⟨(false, "Could not find KDK for host, nor closest match", ""), ri.2, none⟩
  | some cml =>
    let result := verify_apple_developer_portal w cml
    if result = 0 then pure (finish_transfer w ri.2 detected_build closest_build cml)
    else if result = 1 then
      pure ⟨(false, "Could not find KDK for host on Apple's servers, nor closest match", ""),
        ri.2, none⟩
    else if result = 2 then
      (kdk_backup_site w closest_build).bind fun backup =>
        match backup with
        | none => pure ⟨(false,
            "Could not contact Apple download servers and could not find a backup copy online", ""),
            ri.2, none⟩
        | some bl => pure (finish_transfer w ri.2 detected_build closest_build bl)
    else pure ⟨(false, "Unknown error", ""), ri.2, none⟩

/-- Candidate resolution of `download_kdk` (lines 136–158): with a
truthy (nonempty) catalog list, one scan pass produces the primary and
closest candidates; with `None` or an empty list, the primary link is
brute-forced from the URL template and the closest candidate comes from
the legacy matcher. -/
def resolve_candidates (w : World) (version build : String) (pv : PyVersion)
    (kdk_list : Option (List KDKEntry)) : Except PyErr ScanState :=
  match kdk_list with
  | some (k :: ks) => pure (scanKDKs pv build (k :: ks))
  | _ =>
    (get_closest_match_legacy w version build).bind fun legacy =>
      pure (some (generate_kdk_link version build), legacy)

/-- Probe dispatch of `download_kdk` (lines 160–209), the `elif` chain
on the probe result of the primary link: 0 transfers the primary link,
1 enters the closest-match branch, 2 consults the mirror for the
requested build, and 3 fails with the connectivity message.  A missing
primary link is treated as result 1 directly (line 162). -/
def dispatch_link (w : World) (cache0 : Cache) (detected_build : String)
    (resolved : ScanState) : Except PyErr RunResult :=
  match resolved.1 with
  | some dl =>
    let result := verify_apple_developer_portal w dl
    if result = 0 then pure (finish_transfer w cache0 detected_build resolved.2.2.2 dl)
    else if result = 1 then fallback_closest w cache0 detected_build resolved.2.1 resolved.2.2.2
    else if result = 2 then
      (kdk_backup_site w detected_build).bind fun backup =>
        match backup with
        | none => pure ⟨(false,
            "Could not contact Apple download servers and could not find a backup copy online", ""),
            cache0, none⟩
        | some bl => pure (finish_transfer w cache0 detected_build resolved.2.2.2 bl)
    else pure ⟨(false, "Failed to connect to the internet", ""), cache0, none⟩
  | none => fallback_closest w cache0 detected_build resolved.2.1 resolved.2.2.2

/-- Python `download_kdk(version, build)`, the orchestrator.  Returns
the Python triple plus the final cache state and the transferred link;
exceptions escaping the Python function are `Except.error` values. -/
def download_kdk (w : World) (version build : String) : Except PyErr RunResult :=
  let detected_build := build
  let r0 := is_kdk_installed w.cache detected_build
  if r0.1 then
    pure ⟨(true, "", detected_build),
      remove_unused_kdks w.should_nuke_kdks r0.2 [detected_build], none⟩
  else
    (get_available_kdks w).bind fun kdk_list =>
    (expectVersion version).bind fun parsed_version =>
    (resolve_candidates w version build parsed_version kdk_list).bind fun resolved =>
    dispatch_link w r0.2 detected_build resolved

/-- Probe outcome enumeration of the specification. -/
inductive ProbeResult
  | Available
  | Unavailable
  | PortalDown
  | NetworkDown
deriving Repr, DecidableEq

/-- Reading of the source's numeric probe codes (documented in
`verify_apple_developer_portal`: 0 available, 1 unavailable, 2 portal
down, 3 network error) as the specification's enumeration. -/
def probeResultOfCode : Nat → ProbeResult
  | 0 => .Available
  | 1 => .Unavailable
  | 2 => .PortalDown
  | _ => .NetworkDown

/-- Specification-side reading of PortalProbe.verify, written from the
claim's words (for comparison with the code's function): `NetworkDown`
when the connectivity pre-check fails; `PortalDown` when the token
request raises; `Unavailable` when the status is exactly 400 and the
body contains the invalid-path substring; `PortalDown` for any other
non-success status (requests treats 400–599 as errors); `Available` for
a success status. -/
def probeSpec (w : World) (link : String) : ProbeResult :=
  if w.networkUp = false then .NetworkDown
  else match w.tokenResp (token_url_for link) with
    | .exn _ => .PortalDown
    | .resp status body =>
      if status = 400 ∧ strContains body invalid_path_msg then .Unavailable
      else if 400 ≤ status ∧ status < 600 then .PortalDown
      else .Available

/-- Neutral world: everything reachable and healthy, empty catalogs,
empty cache, pruning disabled. -/
def baseWorld : World :=
  { cache := some []
    should_nuke_kdks := false
    catalogResp := .resp 200 []
    legacyResp := .resp 200 []
    networkUp := true
    tokenResp := fun _ => .resp 200 "ok"
    mirrorResp := .resp 200 []
    downloadOk := fun _ => true
    hdiutilOk := true }

/-- Marker-file list of a valid installed kit. -/
def validFiles : List String :=
  kexts_to_check.map fun k => "System/Library/Extensions/" ++ k

/-- World whose catalog response contains one record with a malformed
date string. -/
def c6BadWorld : World :=
  { baseWorld with catalogResp := .resp 200 [⟨"13.2", "22D49", "borked", "u"⟩] }

/-- Two well-formed catalog records, given in ascending order. -/
def c6RawList : List CatalogRecord :=
  [⟨"13.2", "A", "2023-01-01", "u1"⟩, ⟨"13.3", "B", "2023-03-01", "u2"⟩]

/-- World whose catalog response holds two well-formed records, given in
ascending order. -/
def c6GoodWorld : World :=
  { baseWorld with catalogResp := .resp 200 c6RawList }

/-- Parsed, descending-sorted records of `c6GoodWorld`. -/
def c6SortedList : List KDKEntry :=
  [⟨"13.3", "B", "u2", ⟨[13, 3]⟩, ⟨2023, 3, 1⟩⟩,
   ⟨"13.2", "A", "u1", ⟨[13, 2]⟩, ⟨2023, 1, 1⟩⟩]

/-- Qualification predicate of the legacy scan, read off the claim: a
macOS record with a pattern-matching version, a build different from the
host build, and a version at most the host version with equal major and
minor. -/
def legacyQual (phv : PyVersion) (host_build : String) (r : DBRecord) : Bool :=
  r.osType == "macOS" &&
    (match matchVersion r.version with
     | none => false
     | some v =>
       r.build != host_build && (v.vle phv && (v.major == phv.major) && (v.minor == phv.minor)))

/-- Rendering of a selected legacy record as
(generated link, version string, build). -/
def legacyRender (r : DBRecord) : Option String × String × String :=
  match matchVersion r.version with
  | none => (none, "", "")
  | some v => (some (generate_kdk_link v.str r.build), v.str, r.build)

/-- World whose AppleDB response contains a macOS record with a
nonempty malformed release date. -/
def c5BadWorld : World :=
  { baseWorld with legacyResp := .resp 200 [⟨"macOS", "14.3", "23D60", "borked"⟩] }

/-- AppleDB records of the C5 witness: an iOS record (filtered out), a
qualifying older macOS build, and the newest macOS record carrying the
host's own build (which must be skipped). -/
def c5Records : List DBRecord :=
  [⟨"iOS", "17.4", "21E219", "2024-03-05"⟩,
   ⟨"macOS", "14.4", "23E123", "2024-02-01"⟩,
   ⟨"macOS", "14.4", "23E214", "2024-03-07"⟩]

/-- Sorted macOS records of `c5Records`, descending. -/
def c5Sorted : List DBRecord :=
  [⟨"macOS", "14.4", "23E214", "2024-03-07"⟩,
   ⟨"macOS", "14.4", "23E123", "2024-02-01"⟩]

/-- Candidate returned for `c5Records` with host `("14.4", "23E214")`. -/
def c5Out : Option String × String × String :=
  (some (generate_kdk_link "14.4" "23E123"), "14.4", "23E123")

/-- World whose AppleDB response holds two macOS records, the newer one
carrying the host's own build. -/
def c5GoodWorld : World :=
  { baseWorld with legacyResp := .resp 200 c5Records }

/-- URL of the exact-match catalog entry in the C1 witness. -/
def c1Url : String := "https://download.developer.apple.com/x.dmg"

/-- Parsed exact-match catalog entry of the C1 witness. -/
def c1Entry : KDKEntry := ⟨"14.4", "23E214", c1Url, ⟨[14, 4]⟩, ⟨2024, 3, 7⟩⟩

/-- World whose catalog has exactly the requested build, portal healthy. -/
def c1World : World :=
  { baseWorld with catalogResp := .resp 200 [⟨"14.4", "23E214", "2024-03-07", c1Url⟩] }

/-- Expected run result of the C1 witness. -/
def c1Result : RunResult := ⟨(true, "", "23E214"), some [], some c1Url⟩

/-- Valid installed kit carrying the closest candidate's build. -/
def c2InstEntry : Entry := ⟨"KDK_14.3_23D60.kdk", true, validFiles⟩

/-- World where the catalog offers only a closest match whose build is
already installed. -/
def c2World : World :=
  { baseWorld with
    cache := some [c2InstEntry]
    catalogResp := .resp 200 [⟨"14.3", "23D60", "2024-02-01", "u2"⟩] }

/-- World where the catalog offers only a closest match that must be
downloaded. -/
def c2dlWorld : World :=
  { baseWorld with catalogResp := .resp 200 [⟨"14.3", "23D60", "2024-02-01", "u2"⟩] }

/-- Expected run result of the C2 witness: the closest artifact `u2` is
transferred, yet the REQUESTED build is reported. -/
def c2dlResult : RunResult := ⟨(true, "", "23E214"), some [], some "u2"⟩

/-- World in which the portal token request and the mirror catalog both
raise connection errors. -/
def c3World : World :=
  { baseWorld with
    catalogResp := .resp 200 [⟨"14.4", "23E214", "2024-03-07", "u"⟩]
    tokenResp := fun _ => .exn .connectionError
    mirrorResp := .exn .connectionError }

/-- World in which every converted collaborator raises. -/
def c3ConvWorld : World :=
  { baseWorld with
    catalogResp := .exn .timeout
    legacyResp := .exn .connectionError
    tokenResp := fun _ => .exn .timeout }

/-- Kit-directory test: a directory entry whose name ends in `".kdk"`,
which is exactly what the empty-build suffix test accepts. -/
def kitDirPred (x : Entry) : Bool :=
  x.isDir && strEndsWith x.ename ".kdk"

/-- Valid installed kit whose build differs from the request. -/
def c10KitEntry : Entry := ⟨"KDK_13.2_22D49.kdk", true, validFiles⟩

/-- World where the requested build exists in the catalog but the
portal reports the file missing (status 400 with the invalid-path
body), there is no closest candidate, and some other valid kit is
installed. -/
def c10World : World :=
  { baseWorld with
    cache := some [c10KitEntry]
    catalogResp := .resp 200 [⟨"14.4", "23E214", "2024-03-07", "u"⟩]
    tokenResp := fun _ => .resp 400 "error: The path specified is invalid thanks" }

/-! ## Theorems: supporting lemmas and the claim theorems. -/

/-- Membership in an insert. -/
theorem mem_insertGE {α : Type} (r : α → α → Bool) (x z : α) :
    ∀ l : List α, z ∈ insertGE r x l ↔ z = x ∨ z ∈ l := by
  intro l
  induction l with
  | nil => simp [insertGE]
  | cons y ys ih =>
    by_cases h : r x y = true
    · simp [insertGE, h]
    · simp only [insertGE, if_neg h, List.mem_cons, ih]
      tauto

/-- Inserting into a descending-sorted list keeps it sorted, given a
total and transitive relation. -/
theorem pairwise_insertGE {α : Type} (r : α → α → Bool)
    (htrans : ∀ a b c, r a b = true → r b c = true → r a c = true)
    (htot : ∀ a b, (r a b || r b a) = true)
    (x : α) : ∀ l : List α, l.Pairwise (fun a b => r a b = true) →
      (insertGE r x l).Pairwise (fun a b => r a b = true) := by
  intro l
  induction l with
  | nil => intro _; simp [insertGE]
  | cons y ys ih =>
    intro hp
    rcases List.pairwise_cons.mp hp with ⟨hy, hys⟩
    by_cases h : r x y = true
    · rw [show insertGE r x (y :: ys) = x :: y :: ys by simp [insertGE, h]]
      refine List.pairwise_cons.mpr ⟨?_, hp⟩
      intro z hz
      rcases List.mem_cons.mp hz with rfl | hz
      · exact h
      · exact htrans x y z h (hy z hz)
    · rw [show insertGE r x (y :: ys) = y :: insertGE r x ys by simp [insertGE, h]]
      refine List.pairwise_cons.mpr ⟨?_, ih hys⟩
      intro z hz
      rcases (mem_insertGE r x z ys).mp hz with hzx | hz
      · have hyx : r y x = true := by
          rcases Bool.or_eq_true_iff.mp (htot x y) with h1 | h1
          · exact absurd h1 h
          · exact h1
        rw [hzx]
        exact hyx
      · exact hy z hz

/-- Sorted output of the stable descending sort. -/
theorem pairwise_sortGE {α : Type} (r : α → α → Bool)
    (htrans : ∀ a b c, r a b = true → r b c = true → r a c = true)
    (htot : ∀ a b, (r a b || r b a) = true) :
    ∀ l : List α, (sortGE r l).Pairwise (fun a b => r a b = true) := by
  intro l
  induction l with
  | nil => simp [sortGE]
  | cons x xs ih => exact pairwise_insertGE r htrans htot x _ ih

/-- Transitivity of the descending key relation. -/
theorem keyGE_trans {α : Type} (key : α → SortKey) :
    ∀ a b c : α, keyGE key a b = true → keyGE key b c = true → keyGE key a c = true := by
  intro a b c hab hbc
  simp only [keyGE, decide_eq_true_eq] at *
  exact le_trans hbc hab

/-- Totality of the descending key relation. -/
theorem keyGE_total {α : Type} (key : α → SortKey) :
    ∀ a b : α, (keyGE key a b || keyGE key b a) = true := by
  intro a b
  simp only [keyGE, Bool.or_eq_true, decide_eq_true_eq]
  exact le_total (key b) (key a)

/-- C7 counterexample.  With the exclusion set `[""]`, `remove_unused_kdks`
deletes a kit directory even though its name ends with `"" ++ ".kdk"` and
`""` is in the exclusion set: the `build != ""` guard means an
empty-string excluded build protects nothing. -/
theorem c7_counterexample :
    remove_unused_kdks true (some [⟨"KDK_13.2_22D49.kdk", true, []⟩]) [""] = some [] ∧
    strEndsWith "KDK_13.2_22D49.kdk" ("" ++ ".kdk") = true ∧
    ("" : String) ∈ [""] := by
  decide

/-- C7 (amended): `remove_unused_kdks` never removes an entry whose name
ends with `b ++ ".kdk"` for some NONEMPTY build `b` in the exclusion
set, and never touches entries that are not directories with names
ending in `".kdk"`; an empty-string excluded build confers no
protection. -/
theorem c7_prune_exclusion (nuke : Bool) (es : List Entry) (ex : List String)
    (e : Entry) (he : e ∈ es)
    (hprot : (∃ b ∈ ex, b ≠ "" ∧ strEndsWith e.ename (b ++ ".kdk") = true) ∨
             ¬(e.isDir = true ∧ strEndsWith e.ename ".kdk" = true)) :
    ∀ es2, remove_unused_kdks nuke (some es) ex = some es2 → e ∈ es2 := by
  intro es2 hrun
  have hkeep : shouldRemove ex e = false := by
    rcases hprot with ⟨b, hbmem, hbne, hbsuf⟩ | hnot
    · have hany : (ex.any fun b2 => b2 != "" && strEndsWith e.ename (b2 ++ ".kdk")) = true := by
        refine List.any_eq_true.mpr ⟨b, hbmem, ?_⟩
        simp [hbne, hbsuf]
      simp [shouldRemove, hany]
    · cases hdir : e.isDir
      · simp [shouldRemove, hdir]
      · cases hsuf : strEndsWith e.ename ".kdk"
        · simp [shouldRemove, hdir, hsuf]
        · exact absurd ⟨hdir, hsuf⟩ hnot
  unfold remove_unused_kdks at hrun
  rcases hb : nuke with _ | _
  · subst hb; simp at hrun; subst hrun; exact he
  · subst hb
    simp only [Bool.true_eq_false, if_neg (by decide : ¬(true = false))] at hrun
    by_cases hex : ex = []
    · simp [hex] at hrun; subst hrun; exact he
    · simp only [if_neg hex] at hrun
      cases hrun
      exact List.mem_filter.mpr ⟨he, by simp [hkeep]⟩

/-- C7 witness: a directory protected by a nonempty excluded build
survives pruning. -/
theorem c7_witness :
    (⟨"KDK_13.2_22D49.kdk", true, []⟩ : Entry) ∈ [(⟨"KDK_13.2_22D49.kdk", true, []⟩ : Entry)] ∧
    (⟨"KDK_13.2_22D49.kdk", true, []⟩ : Entry) ∈
      [(⟨"KDK_13.2_22D49.kdk", true, []⟩ : Entry)] := by
  refine ⟨by decide, ?_⟩
  have h := c7_prune_exclusion true [⟨"KDK_13.2_22D49.kdk", true, []⟩] ["22D49"]
      ⟨"KDK_13.2_22D49.kdk", true, []⟩ (by decide)
      (Or.inl ⟨"22D49", by decide, by decide, by decide⟩)
  exact h [⟨"KDK_13.2_22D49.kdk", true, []⟩] (by decide)

/-- C8: `remove_unused_kdks` is a no-op when pruning is disabled, when
the cache root is missing, or when the exclusion list is empty. -/
theorem c8_prune_noop (nuke : Bool) (cache : Cache) (ex : List String)
    (h : nuke = false ∨ cache = none ∨ ex = []) :
    remove_unused_kdks nuke cache ex = cache := by
  unfold remove_unused_kdks
  rcases h with h | h | h
  · simp [h]
  · subst h; cases nuke <;> simp
  · subst h; cases nuke <;> cases cache <;> simp

/-- C8 witness: concrete no-op instances for each guard. -/
theorem c8_witness :
    remove_unused_kdks false (some [⟨"a.kdk", true, []⟩]) ["b"] = some [⟨"a.kdk", true, []⟩] ∧
    remove_unused_kdks true none ["b"] = none ∧
    remove_unused_kdks true (some [⟨"a.kdk", true, []⟩]) [] = some [⟨"a.kdk", true, []⟩] :=
  ⟨c8_prune_noop false (some [⟨"a.kdk", true, []⟩]) ["b"] (Or.inl rfl),
   c8_prune_noop true none ["b"] (Or.inr (Or.inl rfl)),
   c8_prune_noop true (some [⟨"a.kdk", true, []⟩]) [] (Or.inr (Or.inr rfl))⟩

/-- C9: pruning twice with the same exclusion set is the same as pruning
once — the second call deletes nothing. -/
theorem c9_prune_idempotent (nuke : Bool) (cache : Cache) (ex : List String) :
    remove_unused_kdks nuke (remove_unused_kdks nuke cache ex) ex =
      remove_unused_kdks nuke cache ex := by
  unfold remove_unused_kdks
  cases nuke
  · simp
  · cases cache with
    | none => simp
    | some es =>
      by_cases hex : ex = []
      · simp [hex]
      · simp only [if_neg (by decide : ¬(true = false)), if_neg hex]
        rw [List.filter_filter]
        simp

/-- C4: for every world and URL, `verify_apple_developer_portal` returns
exactly the probe result described by the specification. -/
theorem c4_probe_matches_spec (w : World) (link : String) :
    probeResultOfCode (verify_apple_developer_portal w link) = probeSpec w link := by
  unfold verify_apple_developer_portal probeSpec
  by_cases hnet : w.networkUp = false
  · simp [hnet, probeResultOfCode]
  · simp only [if_neg hnet]
    cases w.tokenResp (token_url_for link) with
    | exn e => rfl
    | resp status body =>
      by_cases herr : 400 ≤ status ∧ status < 600
      · simp only [if_pos herr]
        by_cases hinv : status = 400 ∧ strContains body invalid_path_msg = true
        · simp [hinv, probeResultOfCode]
        · have : ¬(status = 400 ∧ strContains body invalid_path_msg) := by
            intro hc
            exact hinv ⟨hc.1, hc.2⟩
          simp [this, herr, probeResultOfCode]
      · have hnotinv : ¬(status = 400 ∧ strContains body invalid_path_msg) := by
          intro hc
          exact herr ⟨le_of_eq hc.1.symm, by rw [hc.1]; decide⟩
        simp [herr, hnotinv, probeResultOfCode]

/-- C6 counterexample.  A catalog record with a malformed date makes
`get_available_kdks` raise (the `ValueError` from `fromisoformat`
escapes the sort's key lambda uncaught); no sentinel minimum is
substituted in this function. -/
theorem c6_counterexample :
    get_available_kdks c6BadWorld = .error (.invalidDate "borked") := by
  decide

/-- C6 (amended): whenever `get_available_kdks` returns a catalog (all
records parsed), the returned list is non-increasing in
(parsed version, parsed date). -/
theorem c6_catalog_sorted (w : World) (l : List KDKEntry)
    (h : get_available_kdks w = .ok (some l)) :
    l.Pairwise (fun a b => kdkKey b ≤ kdkKey a) := by
  unfold get_available_kdks at h
  cases hc : w.catalogResp with
  | exn e => rw [hc] at h; cases h
  | resp status raw =>
    rw [hc] at h
    dsimp only at h
    by_cases hs : status ≠ 200
    · rw [if_pos hs] at h; cases h
    · rw [if_neg hs] at h
      cases hm : raw.mapM parseKDK with
      | error e => rw [hm] at h; cases h
      | ok parsed =>
        rw [hm] at h
        have hl : l = sortGE (keyGE kdkKey) parsed := by
          cases h
          rfl
        subst hl
        have hp := pairwise_sortGE (keyGE kdkKey) (keyGE_trans kdkKey) (keyGE_total kdkKey) parsed
        exact hp.imp fun hab => by
          simpa [keyGE, decide_eq_true_eq] using hab

/-- C6 witness: a two-record catalog comes back sorted descending. -/
theorem c6_witness :
    get_available_kdks c6GoodWorld = .ok (some c6SortedList) ∧
    c6SortedList.Pairwise (fun a b => kdkKey b ≤ kdkKey a) := by
  refine ⟨by decide, ?_⟩
  exact c6_catalog_sorted c6GoodWorld c6SortedList (by decide)

/-- Bind of a successful `Except` computation reduces to the
continuation. -/
theorem bindE_ok {ε α β : Type} (a : α) (f : α → Except ε β) :
    ((Except.ok a : Except ε α) >>= f) = f a := rfl

/-- Bind of a failed `Except` computation propagates the error. -/
theorem bindE_err {ε α β : Type} (e : ε) (f : α → Except ε β) :
    ((Except.error e : Except ε α) >>= f) = .error e := rfl

/-- Pure value of the `Except` monad. -/
theorem pureE {ε α : Type} (a : α) : (pure a : Except ε α) = .ok a := rfl

/-- Method-form bind of a successful `Except` computation. -/
theorem bindX_ok {ε α β : Type} (a : α) (f : α → Except ε β) :
    (Except.ok a : Except ε α).bind f = f a := rfl

/-- Method-form bind of a failed `Except` computation. -/
theorem bindX_err {ε α β : Type} (er : ε) (f : α → Except ε β) :
    (Except.error er : Except ε α).bind f = .error er := rfl

/-- A non-qualifying head record is skipped by the legacy scan. -/
theorem scanLegacy_cons_skip (phv : PyVersion) (hb : String) (r : DBRecord)
    (rs : List DBRecord) (h : legacyQual phv hb r = false) :
    scanLegacy phv hb (r :: rs) = scanLegacy phv hb rs := by
  rw [scanLegacy]
  cases hos : (r.osType == "macOS") with
  | false => rw [if_neg (by decide)]
  | true =>
    rw [if_pos rfl]
    cases hmv : matchVersion r.version with
    | none => rfl
    | some v =>
      dsimp only
      simp only [legacyQual, hmv, hos, Bool.true_and] at h
      cases hbld : (r.build == hb) with
      | true => rw [if_pos rfl]
      | false =>
        rw [if_neg (by decide)]
        have hbne : (r.build != hb) = true := by
          rw [bne, hbld]
          rfl
        rw [hbne, Bool.true_and] at h
        rw [if_neg (by rw [h]; exact Bool.false_ne_true)]

/-- A qualifying head record is selected by the legacy scan. -/
theorem scanLegacy_cons_hit (phv : PyVersion) (hb : String) (r : DBRecord)
    (rs : List DBRecord) (h : legacyQual phv hb r = true) :
    scanLegacy phv hb (r :: rs) = legacyRender r := by
  cases hmv : matchVersion r.version with
  | none => simp [legacyQual, hmv] at h
  | some v =>
    simp only [legacyQual, hmv] at h
    rw [Bool.and_eq_true] at h
    obtain ⟨hos, h2⟩ := h
    rw [Bool.and_eq_true] at h2
    obtain ⟨hbne, hcond⟩ := h2
    have hbf : (r.build == hb) = false := by
      cases hx : (r.build == hb)
      · rfl
      · rw [bne, hx] at hbne
        cases hbne
    rw [scanLegacy, legacyRender, if_pos hos, hmv]
    dsimp only
    rw [if_neg (by rw [hbf]; exact Bool.false_ne_true), if_pos hcond]

/-- The legacy scan returns exactly the first qualifying record of the
list (rendered), or the empty candidate when none qualifies. -/
theorem scanLegacy_eq_find (phv : PyVersion) (hb : String) :
    ∀ L : List DBRecord, scanLegacy phv hb L =
      match L.find? (legacyQual phv hb) with
      | none => (none, "", "")
      | some r => legacyRender r := by
  intro L
  induction L with
  | nil => rfl
  | cons r rs ih =>
    cases hq : legacyQual phv hb r with
    | true =>
      rw [List.find?_cons_of_pos _ hq, scanLegacy_cons_hit phv hb r rs hq]
    | false =>
      rw [List.find?_cons_of_neg _ (by rw [hq]; exact Bool.false_ne_true),
        scanLegacy_cons_skip phv hb r rs hq]
      exact ih

/-- C5 counterexample.  A legacy record with a nonempty malformed
release date makes `get_closest_match_legacy` raise out of the sort's
key lambda (only the EMPTY date gets the `1984-01-01` sentinel), so for
that response the function returns no candidate triple at all. -/
theorem c5_counterexample :
    get_closest_match_legacy c5BadWorld "14.4" "23E214" = .error (.invalidDate "borked") := by
  decide

/-- C5 (amended): whenever `get_closest_match_legacy` returns (rather
than raising) on a 200 response, its result is the rendering of the
FIRST qualifying record of the sorted list — qualifying meaning: macOS,
pattern-matching version, build different from the host build, version
at most the host version with equal major and minor — or the empty
candidate when none qualifies; in particular a returned candidate never
carries the host build. -/
theorem c5_legacy_selection (w : World) (hv hb : String) (phv : PyVersion)
    (js sorted : List DBRecord) (out : Option String × String × String)
    (h1 : parseVersion hv = some phv)
    (h2 : w.legacyResp = .resp 200 js)
    (h3 : sortLegacyE js = .ok sorted)
    (h4 : get_closest_match_legacy w hv hb = .ok out) :
    out = (match sorted.find? (legacyQual phv hb) with
           | none => (none, "", "")
           | some r => legacyRender r) ∧
    (∀ u, out.1 = some u → out.2.2 ≠ hb) := by
  unfold get_closest_match_legacy at h4
  rw [show expectVersion hv = .ok phv by simp [expectVersion, h1], bindE_ok, h2] at h4
  dsimp only at h4
  rw [if_neg (by simp), h3, bindE_ok, pureE] at h4
  have hout : out = scanLegacy phv hb sorted := by
    cases h4
    rfl
  rw [scanLegacy_eq_find] at hout
  refine ⟨hout, ?_⟩
  intro u hu
  cases hfind : sorted.find? (legacyQual phv hb) with
  | none =>
    rw [hfind] at hout
    rw [hout] at hu
    cases hu
  | some r =>
    rw [hfind] at hout
    have hq := List.find?_some hfind
    cases hmv : matchVersion r.version with
    | none => simp [legacyQual, hmv] at hq
    | some v =>
      have hb2 : (r.build == hb) = false := by
        simp only [legacyQual, hmv, Bool.and_eq_true, bne_iff_ne] at hq
        rcases hq with ⟨_, hq2, _⟩
        simpa using hq2
      rw [hout]
      simp only [legacyRender, hmv]
      intro hcontra
      rw [hcontra] at hb2
      simp at hb2

/-- C5 witness: with the host's own build newest in the database, the
scan skips it and selects the next qualifying record. -/
theorem c5_witness :
    c5Out = (match c5Sorted.find? (legacyQual ⟨[14, 4]⟩ "23E214") with
             | none => (none, "", "")
             | some r => legacyRender r) ∧
    ("23E123" : String) ≠ "23E214" := by
  have h := c5_legacy_selection c5GoodWorld "14.4" "23E214" ⟨[14, 4]⟩ c5Records c5Sorted c5Out
    (by decide) rfl (by decide) (by decide)
  exact ⟨h.1, h.2 (generate_kdk_link "14.4" "23E123") rfl⟩

/-- Once the primary download link is set to `some u`, later catalog
scan steps never change it, provided every exact match in the remaining
list carries the URL `u`. -/
theorem scanStep_fst_preserve (pv : PyVersion) (build u : String) :
    ∀ (l : List KDKEntry) (acc : ScanState),
      (∀ e ∈ l, e.build = build → e.url = u) → acc.1 = some u →
      (l.foldl (scanStep pv build) acc).1 = some u := by
  intro l
  induction l with
  | nil => intro acc _ hacc; exact hacc
  | cons k ks ih =>
    intro acc hall hacc
    rw [List.foldl_cons]
    refine ih (scanStep pv build acc k) (fun e2 he2 hb2 => hall e2 (List.mem_cons_of_mem _ he2) hb2) ?_
    unfold scanStep
    by_cases hk : (k.build == build) = true
    · rw [if_pos hk]
      have hurl : k.url = u := hall k (List.mem_cons_self k _) (by simpa using hk)
      simpa using hurl
    · rw [if_neg hk]
      split
      · exact hacc
      · exact hacc

/-- If the catalog list contains an exact build match and all exact
matches carry the URL `u`, the scan's primary download link is `u`. -/
theorem scanFold_fst (pv : PyVersion) (build u : String) :
    ∀ (l : List KDKEntry) (acc : ScanState),
      (∃ e ∈ l, e.build = build) →
      (∀ e ∈ l, e.build = build → e.url = u) →
      (l.foldl (scanStep pv build) acc).1 = some u := by
  intro l
  induction l with
  | nil => rintro acc ⟨e, he, _⟩ _; cases he
  | cons k ks ih =>
    rintro acc ⟨e, he, hbe⟩ hall
    rw [List.foldl_cons]
    by_cases hk : (k.build == build) = true
    · refine scanStep_fst_preserve pv build u ks _
        (fun e2 he2 hb2 => hall e2 (List.mem_cons_of_mem _ he2) hb2) ?_
      unfold scanStep
      rw [if_pos hk]
      have hurl : k.url = u := hall k (List.mem_cons_self k _) (by simpa using hk)
      simpa using hurl
    · have he2 : e ∈ ks := by
        rcases List.mem_cons.mp he with rfl | h
        · exact absurd (by simp [hbe]) hk
        · exact h
      exact ih (scanStep pv build acc k) ⟨e, he2, hbe⟩
        (fun e3 he3 hb3 => hall e3 (List.mem_cons_of_mem _ he3) hb3)

/-- C1: when the catalog contains an entry whose build equals the
requested build (all such entries agreeing on one URL), the portal
probe reports the file available at that URL, and transfer plus
integrity check succeed, the orchestrator transfers exactly that URL
and returns `(true, "", requested build)`. -/
theorem c1_exact_match (w : World) (version build : String) (l : List KDKEntry)
    (e : KDKEntry) (pv : PyVersion)
    (hinst : (is_kdk_installed w.cache build).1 = false)
    (hcat : get_available_kdks w = .ok (some l))
    (hpv : parseVersion version = some pv)
    (he : e ∈ l) (hbe : e.build = build)
    (huniq : ∀ e2 ∈ l, e2.build = build → e2.url = e.url)
    (hprobe : verify_apple_developer_portal w e.url = 0)
    (hdl : w.downloadOk e.url = true)
    (hhd : w.hdiutilOk = true) :
    download_kdk w version build =
      .ok ⟨(true, "", build),
        remove_unused_kdks w.should_nuke_kdks (is_kdk_installed w.cache build).2
          [build, (scanKDKs pv build l).2.2.2], some e.url⟩ := by
  cases l with
  | nil => cases he
  | cons k ks =>
    have hfst : (scanKDKs pv build (k :: ks)).1 = some e.url :=
      scanFold_fst pv build e.url (k :: ks) (none, none, "", "") ⟨e, he, hbe⟩ huniq
    rw [download_kdk]
    rw [if_neg (by rw [hinst]; exact Bool.false_ne_true)]
    rw [hcat, bindX_ok]
    rw [show expectVersion version = .ok pv from by simp [expectVersion, hpv], bindX_ok]
    rw [show resolve_candidates w version build pv (some (k :: ks)) =
      .ok (scanKDKs pv build (k :: ks)) from rfl, bindX_ok]
    rw [dispatch_link, hfst]
    dsimp only
    rw [if_pos hprobe, finish_transfer, if_pos hdl, if_pos hhd, pureE]

/-- Whenever the transfer tail reports success, the reported build is
the detected (requested) build. -/
theorem finish_transfer_success (w : World) (c : Cache) (d cb link : String)
    (h : (finish_transfer w c d cb link).result.1 = true) :
    (finish_transfer w c d cb link).result.2.2 = d := by
  unfold finish_transfer at h ⊢
  by_cases h1 : w.downloadOk link = true
  · rw [if_pos h1] at h ⊢
    by_cases h2 : w.hdiutilOk = true
    · rw [if_pos h2]
    · rw [if_neg h2] at h
      cases h
  · rw [if_neg h1] at h
    cases h

/-- A successful closest-match branch that attempted a transfer reports
the detected (requested) build.  (The already-installed sub-branch,
which reports the CLOSEST build, attempts no transfer.) -/
theorem fallback_closest_success (w : World) (c : Cache) (d : String)
    (cl : Option String) (cb : String) (r : RunResult)
    (hok : fallback_closest w c d cl cb = .ok r)
    (hsucc : r.result.1 = true) (hdl : r.downloaded.isSome = true) :
    r.result.2.2 = d := by
  unfold fallback_closest at hok
  by_cases hi : (is_kdk_installed c cb).1 = true
  · rw [if_pos hi, pureE] at hok
    injection hok with hok
    subst hok
    simp at hdl
  · rw [if_neg hi] at hok
    cases cl with
    | none =>
      dsimp only at hok
      rw [pureE] at hok
      injection hok with hok
      subst hok
      simp at hsucc
    | some cml =>
      dsimp only at hok
      by_cases h0 : verify_apple_developer_portal w cml = 0
      · rw [if_pos h0, pureE] at hok
        injection hok with hok
        subst hok
        exact finish_transfer_success w _ d cb cml hsucc
      · rw [if_neg h0] at hok
        by_cases h1 : verify_apple_developer_portal w cml = 1
        · rw [if_pos h1, pureE] at hok
          injection hok with hok
          subst hok
          simp at hsucc
        · rw [if_neg h1] at hok
          by_cases h2 : verify_apple_developer_portal w cml = 2
          · rw [if_pos h2] at hok
            cases hb : kdk_backup_site w cb with
            | error e => rw [hb, bindX_err] at hok; cases hok
            | ok ob =>
              rw [hb, bindX_ok] at hok
              cases ob with
              | none =>
                dsimp only at hok
                rw [pureE] at hok
                injection hok with hok
                subst hok
                simp at hsucc
              | some bl =>
                dsimp only at hok
                rw [pureE] at hok
                injection hok with hok
                subst hok
                exact finish_transfer_success w _ d cb bl hsucc
          · rw [if_neg h2, pureE] at hok
            injection hok with hok
            subst hok
            simp at hsucc

/-- A successful probe dispatch that attempted a transfer reports the
detected (requested) build. -/
theorem dispatch_link_success (w : World) (c : Cache) (d : String) (resolved : ScanState)
    (r : RunResult) (hok : dispatch_link w c d resolved = .ok r)
    (hsucc : r.result.1 = true) (hdl : r.downloaded.isSome = true) :
    r.result.2.2 = d := by
  unfold dispatch_link at hok
  cases hopt : resolved.1 with
  | none =>
    rw [hopt] at hok
    exact fallback_closest_success w c d resolved.2.1 resolved.2.2.2 r hok hsucc hdl
  | some dl =>
    rw [hopt] at hok
    dsimp only at hok
    by_cases h0 : verify_apple_developer_portal w dl = 0
    · rw [if_pos h0, pureE] at hok
      injection hok with hok
      subst hok
      exact finish_transfer_success w c d resolved.2.2.2 dl hsucc
    · rw [if_neg h0] at hok
      by_cases h1 : verify_apple_developer_portal w dl = 1
      · rw [if_pos h1] at hok
        exact fallback_closest_success w c d resolved.2.1 resolved.2.2.2 r hok hsucc hdl
      · rw [if_neg h1] at hok
        by_cases h2 : verify_apple_developer_portal w dl = 2
        · rw [if_pos h2] at hok
          cases hb : kdk_backup_site w d with
          | error e => rw [hb, bindX_err] at hok; cases hok
          | ok ob =>
            rw [hb, bindX_ok] at hok
            cases ob with
            | none =>
              dsimp only at hok
              rw [pureE] at hok
              injection hok with hok
              subst hok
              simp at hsucc
            | some bl =>
              dsimp only at hok
              rw [pureE] at hok
              injection hok with hok
              subst hok
              exact finish_transfer_success w c d resolved.2.2.2 bl hsucc
        · rw [if_neg h2, pureE] at hok
          injection hok with hok
          subst hok
          simp at hsucc

/-- C2 (amended): every successful `download_kdk` run that actually
attempted a transfer reports the originally requested build; the branch
that finds the closest candidate already installed (which transfers
nothing) reports the closest build instead. -/
theorem c2_success_transfer_build (w : World) (version build : String) (r : RunResult)
    (hok : download_kdk w version build = .ok r)
    (hsucc : r.result.1 = true) (hdl : r.downloaded.isSome = true) :
    r.result.2.2 = build := by
  rw [download_kdk] at hok
  by_cases h0 : (is_kdk_installed w.cache build).1 = true
  · rw [if_pos h0, pureE] at hok
    injection hok with hok
    subst hok
    rfl
  · rw [if_neg h0] at hok
    cases hc : get_available_kdks w with
    | error e => rw [hc, bindX_err] at hok; cases hok
    | ok kdk_list =>
      rw [hc, bindX_ok] at hok
      cases hv : expectVersion version with
      | error e => rw [hv, bindX_err] at hok; cases hok
      | ok pv =>
        rw [hv, bindX_ok] at hok
        cases hr : resolve_candidates w version build pv kdk_list with
        | error e => rw [hr, bindX_err] at hok; cases hok
        | ok resolved =>
          rw [hr, bindX_ok] at hok
          exact dispatch_link_success w _ build resolved r hok hsucc hdl

/-- C1 witness: the exact-match entry's URL is transferred and the
requested build reported. -/
theorem c1_witness : download_kdk c1World "14.4" "23E214" = .ok c1Result := by
  have h := c1_exact_match c1World "14.4" "23E214" [c1Entry] c1Entry ⟨[14, 4]⟩
    (by decide) (by decide) (by decide) (by decide) (by decide) (by decide)
    (by decide) (by decide) (by decide)
  rw [h]
  decide

/-- C2 counterexample.  Requesting `("14.4", "23E214")` when the closest
candidate `23D60` is already installed succeeds but reports `23D60`,
not the requested build, refuting the claim that every successful
resolution reports the requested build. -/
theorem c2_counterexample :
    download_kdk c2World "14.4" "23E214" =
      .ok ⟨(true, "", "23D60"), some [c2InstEntry], none⟩ ∧
    ("23D60" : String) ≠ "23E214" := by
  decide

/-- C2 witness: a closest-match download reports the requested build. -/
theorem c2_witness :
    download_kdk c2dlWorld "14.4" "23E214" = .ok c2dlResult ∧
    c2dlResult.result.2.2 = "23E214" := by
  refine ⟨by decide, ?_⟩
  exact c2_success_transfer_build c2dlWorld "14.4" "23E214" c2dlResult
    (by decide) (by decide) (by decide)

/-- C3 counterexample.  With the portal down, the orchestrator consults
the mirror; `kdk_backup_site` calls `requests.get` with no try/except,
so the mirror's connection error escapes `download_kdk` as an uncaught
exception, crossing the orchestrator boundary. -/
theorem c3_counterexample :
    download_kdk c3World "14.4" "23E214" = .error (.netExn .connectionError) := by
  decide

/-- C3 (amended): the catalog fetch, the legacy lookup, and the portal
probe DO convert their `requests` exceptions into in-band values
(`None` / `(None, "", "")` / code 2); only the mirror lookup (and a
malformed catalog record, per C6) lets a fault propagate. -/
theorem c3_faults_partially_converted (w : World) (v b link : String) (pv : PyVersion)
    (e1 e2 e3 : ReqExn) :
    (w.catalogResp = .exn e1 → get_available_kdks w = .ok none) ∧
    (parseVersion v = some pv → w.legacyResp = .exn e2 →
      get_closest_match_legacy w v b = .ok (none, "", "")) ∧
    (w.networkUp = true → w.tokenResp (token_url_for link) = .exn e3 →
      verify_apple_developer_portal w link = 2) := by
  refine ⟨?_, ?_, ?_⟩
  · intro h
    unfold get_available_kdks
    rw [h]
  · intro hp hl
    unfold get_closest_match_legacy
    rw [show expectVersion v = .ok pv from by simp [expectVersion, hp], bindE_ok, hl]
    rfl
  · intro hn ht
    unfold verify_apple_developer_portal
    rw [if_neg (by rw [hn]; exact fun hc => absurd hc (by decide)), ht]

/-- C3 witness: concrete conversions of raised exceptions into in-band
values by the three guarded collaborators. -/
theorem c3_witness :
    get_available_kdks c3ConvWorld = .ok none ∧
    get_closest_match_legacy c3ConvWorld "14.4" "23E214" = .ok (none, "", "") ∧
    verify_apple_developer_portal c3ConvWorld "https://host/x.dmg" = 2 := by
  obtain ⟨ha, hb, hc⟩ := c3_faults_partially_converted c3ConvWorld "14.4" "23E214"
    "https://host/x.dmg" ⟨[14, 4]⟩ .timeout .connectionError .timeout
  exact ⟨ha rfl, hb (by decide) rfl, hc rfl rfl⟩

/-- With the empty build, the install scan's suffix test
`ename.endswith("" + ".kdk")` accepts every `.kdk` directory, so the
scan's verdict is decided by the FIRST such directory: `true` exactly
when it has all marker files. -/
theorem installedScan_empty_build (e : Entry) :
    ∀ es : List Entry,
      es.find? kitDirPred = some e →
      entryValid e = true →
      (installedScan "" es).1 = true := by
  intro es
  induction es with
  | nil => intro hfind; cases hfind
  | cons e0 es ih =>
    intro hfind hvalid
    by_cases hp : kitDirPred e0 = true
    · rw [List.find?_cons_of_pos _ hp] at hfind
      injection hfind with hfe
      obtain ⟨hd, hs⟩ := Bool.and_eq_true_iff.mp hp
      rw [installedScan,
        if_pos (⟨hd, hs⟩ : e0.isDir = true ∧ strEndsWith e0.ename ("" ++ ".kdk") = true)]
      rw [if_pos (by rw [← hfe] at hvalid; exact hvalid)]
    · rw [List.find?_cons_of_neg _ hp] at hfind
      have hneg : ¬(e0.isDir = true ∧ strEndsWith e0.ename ("" ++ ".kdk") = true) := by
        intro hc
        exact hp (by rw [kitDirPred, Bool.and_eq_true_iff]; exact ⟨hc.1, hc.2⟩)
      rw [installedScan, if_neg hneg]
      exact ih hfind hvalid

/-- C10 counterexample.  When the FIRST `.kdk` directory is corrupted,
`is_kdk_installed("")` returns `false` (after removing it) even though a
later valid kit directory exists — so the claim's "returns true
whenever any valid kit directory exists" fails. -/
theorem c10_counterexample :
    (is_kdk_installed
        (some [⟨"KDK_14.0_23A344.kdk", true, []⟩, ⟨"KDK_14.3_23D60.kdk", true, validFiles⟩])
        "").1 = false ∧
    entryValid ⟨"KDK_14.3_23D60.kdk", true, validFiles⟩ = true ∧
    (⟨"KDK_14.3_23D60.kdk", true, validFiles⟩ : Entry).isDir = true ∧
    strEndsWith "KDK_14.3_23D60.kdk" ("" ++ ".kdk") = true := by
  decide

/-- C10 (amended): `is_kdk_installed("")` returns `true` exactly when
the FIRST `.kdk` directory of the listing exists and is valid (the
empty-build suffix test matches every kit directory); consequently,
when the primary probe reports code 1 and the catalog scan produced no
closest candidate (empty closest build, no closest link), the
orchestrator returns `(true, "", "")` — success with the empty build —
whenever that first-kit condition holds after the initial install
check. -/
theorem c10_empty_build_resolution :
    (∀ (es : List Entry) (e : Entry),
        es.find? kitDirPred = some e →
        entryValid e = true →
        (is_kdk_installed (some es) "").1 = true) ∧
    (∀ (w : World) (version build : String) (pv : PyVersion)
        (k : KDKEntry) (ks : List KDKEntry) (dl cv : String),
        (is_kdk_installed w.cache build).1 = false →
        get_available_kdks w = .ok (some (k :: ks)) →
        parseVersion version = some pv →
        scanKDKs pv build (k :: ks) = (some dl, none, cv, "") →
        verify_apple_developer_portal w dl = 1 →
        (is_kdk_installed (is_kdk_installed w.cache build).2 "").1 = true →
        download_kdk w version build =
          .ok ⟨(true, "", ""),
            remove_unused_kdks w.should_nuke_kdks
              (is_kdk_installed (is_kdk_installed w.cache build).2 "").2 [build, ""], none⟩) := by
  constructor
  · intro es e hfind hvalid
    unfold is_kdk_installed
    exact installedScan_empty_build e es hfind hvalid
  · intro w version build pv k ks dl cv hinst hcat hpv hscan hprobe hins2
    rw [download_kdk]
    rw [if_neg (by rw [hinst]; exact Bool.false_ne_true)]
    rw [hcat, bindX_ok]
    rw [show expectVersion version = .ok pv from by simp [expectVersion, hpv], bindX_ok]
    rw [show resolve_candidates w version build pv (some (k :: ks)) =
      .ok (scanKDKs pv build (k :: ks)) from rfl, bindX_ok]
    rw [hscan, dispatch_link]
    dsimp only
    rw [if_neg (by rw [hprobe]; exact fun hc => absurd hc (by decide)), if_pos hprobe]
    rw [fallback_closest]
    rw [if_pos hins2, pureE]

/-- C10 witness: with an unavailable primary file, no closest candidate,
and some valid kit installed, the orchestrator reports success with the
empty-string build. -/
theorem c10_witness :
    (is_kdk_installed (some [c10KitEntry]) "").1 = true ∧
    download_kdk c10World "14.4" "23E214" =
      .ok ⟨(true, "", ""), some [c10KitEntry], none⟩ := by
  refine ⟨?_, ?_⟩
  · exact c10_empty_build_resolution.1 [c10KitEntry] c10KitEntry (by decide) (by decide)
  · have h := c10_empty_build_resolution.2 c10World "14.4" "23E214" ⟨[14, 4]⟩
      ⟨"14.4", "23E214", "u", ⟨[14, 4]⟩, ⟨2024, 3, 7⟩⟩ [] "u" ""
      (by decide) (by decide) (by decide) (by decide) (by decide) (by decide)
    rw [h]
    decide

end KDK
